import Mathlib

/-!
Shallow embedding of the LS8 CPU simulator (`cpu.py`).

Modelling conventions:
* Python integers and floats living in registers and memory cells are
  modelled as rationals (`ℚ`).  All concrete values reached in this
  development are exactly representable, in particular the true-division
  results produced by the ALU's `DIV` path (`7 / 2 = 3.5`).
* A Python list is a `List ℚ`; indexing follows Python semantics: an
  index that is not an integer raises `TypeError`, an integer index `i`
  with `-len ≤ i < 0` silently accesses cell `i + len`, and any other
  out-of-range index raises `IndexError`.  A raised exception is
  modelled as `none`.
* `print` calls are modelled as events appended to an `output` list.
* The wall-clock in `run` is modelled by an explicit `elapsed` argument
  (seconds since the last interrupt check).
-/

unseal Rat.add Rat.mul Rat.inv Rat.sub

set_option maxRecDepth 100000

namespace LS8

/-- An observable emission of the simulator: `chr v` models
`print(chr(v))` in `pra`, `num v` models `print(v)` in `prn`, and
`errDivZero` models the `"Error: Cannot divide by 0!"` message printed
on the ALU's divide-by-zero path. -/
inductive OutEvent where
  | chr : ℚ → OutEvent
  | num : ℚ → OutEvent
  | errDivZero : OutEvent
deriving DecidableEq, Repr

/-- The machine state of `class CPU`: `ram` (256 cells), the eight
registers `reg`, the program counter, the flags byte, the running flag,
the interrupt latch and the accumulated output. -/
structure CPUState where
  ram : List ℚ
  reg : List ℚ
  pc : ℚ
  fl : ℕ
  running : Bool
  interrupts_disabled : Bool
  output : List OutEvent
deriving DecidableEq, Repr

/-- Register alias `IM = 5` (interrupt mask). -/
def IM : ℕ := 5
/-- Register alias `IS = 6` (interrupt status). -/
def IS : ℕ := 6
/-- Register alias `SP = 7` (stack pointer). -/
def SP : ℕ := 7

/-- Python list index normalisation: a non-integer index is a
`TypeError` (`none`); a negative integer `i` with `-len ≤ i` denotes
cell `i + len`; anything else out of `[0, len)` is an `IndexError`
(`none`). -/
def pyIdx (len : ℕ) (i : ℚ) : Option ℕ :=
  if i.den = 1 then
    if 0 ≤ i.num then
      if i.num < len then some i.num.toNat else none
    else
      if 0 ≤ i.num + len then some (i.num + len).toNat else none
  else none

/-- Python `l[i]` on a list of machine words. -/
def pyGet (l : List ℚ) (i : ℚ) : Option ℚ :=
  (pyIdx l.length i).map (fun n => l.getD n 0)

/-- Python `l[i] = v` on a list of machine words. -/
def pySet (l : List ℚ) (i : ℚ) (v : ℚ) : Option (List ℚ) :=
  (pyIdx l.length i).map (fun n => l.set n v)

/-- `ram_read(self, mar): return self.ram[mar]`. -/
def ram_read (s : CPUState) (mar : ℚ) : Option ℚ :=
  pyGet s.ram mar

/-- `ram_write(self, mar, mdr): self.ram[mar] = mdr`. -/
def ram_write (s : CPUState) (mar mdr : ℚ) : Option CPUState :=
  (pySet s.ram mar mdr).map (fun r => { s with ram := r })

/-- `hlt(self): self.running = False`. -/
def hlt (s : CPUState) : CPUState :=
  { s with running := false }

/-- `alu(self, op, reg_a, reg_b)`: the four register-to-register
operations.  On `DIV` with a zero divisor the source prints an error
and calls `hlt` instead of raising; on an unknown op it raises
(`none`).  Note that `DIV` uses Python true division `/=`. -/
def alu (op : String) (reg_a reg_b : ℚ) (s : CPUState) : Option CPUState :=
  if op = "ADD" then do
    let a ← pyGet s.reg reg_a
    let b ← pyGet s.reg reg_b
    let r ← pySet s.reg reg_a (a + b)
    some { s with reg := r }
  else if op = "SUB" then do
    let a ← pyGet s.reg reg_a
    let b ← pyGet s.reg reg_b
    let r ← pySet s.reg reg_a (a - b)
    some { s with reg := r }
  else if op = "MUL" then do
    let a ← pyGet s.reg reg_a
    let b ← pyGet s.reg reg_b
    let r ← pySet s.reg reg_a (a * b)
    some { s with reg := r }
  else if op = "DIV" then do
    let b ← pyGet s.reg reg_b
    if b = 0 then
      some (hlt { s with output := s.output ++ [OutEvent.errDivZero] })
    else do
      let a ← pyGet s.reg reg_a
      let r ← pySet s.reg reg_a (a / b)
      some { s with reg := r }
  else none

/-- `add(self)`: ALU `ADD` on the two operand bytes, then `pc += 3`. -/
def add (s : CPUState) : Option CPUState := do
  let a ← ram_read s (s.pc + 1)
  let b ← ram_read s (s.pc + 2)
  let s1 ← alu "ADD" a b s
  some { s1 with pc := s1.pc + 3 }

/-- `call(self)`: decrement SP, store `pc + 2` at the new SP, then set
`pc` to the value of the operand register (read after the store). -/
def call (s : CPUState) : Option CPUState := do
  let sp ← pyGet s.reg (SP : ℚ)
  let r ← pySet s.reg (SP : ℚ) (sp - 1)
  let s1 : CPUState := { s with reg := r }
  let sp1 ← pyGet s1.reg (SP : ℚ)
  let s2 ← ram_write s1 sp1 (s1.pc + 2)
  let idx ← ram_read s2 (s2.pc + 1)
  let v ← pyGet s2.reg idx
  some { s2 with pc := v }

/-- `comp(self)`: compare the two operand registers and set `fl` to 1
(equal), 4 (less) or 2 (greater); the `if/elif/elif` chain has no
`else`, so `fl` is kept when no branch fires.  Then `pc += 3`. -/
def comp (s : CPUState) : Option CPUState := do
  let ia ← ram_read s (s.pc + 1)
  let a ← pyGet s.reg ia
  let ib ← ram_read s (s.pc + 2)
  let b ← pyGet s.reg ib
  let fl1 : ℕ :=
    if a = b then 0b00000001
    else if a < b then 0b00000100
    else if a > b then 0b00000010
    else s.fl
  some { s with fl := fl1, pc := s.pc + 3 }

/-- `div(self)`: ALU `DIV` on the two operand bytes, then `pc += 3`. -/
def div (s : CPUState) : Option CPUState := do
  let a ← ram_read s (s.pc + 1)
  let b ← ram_read s (s.pc + 2)
  let s1 ← alu "DIV" a b s
  some { s1 with pc := s1.pc + 3 }

/-- `jeq(self)`: jump to the operand register's value when bit 0 of
`fl` is set, else `pc += 2`. -/
def jeq (s : CPUState) : Option CPUState :=
  if s.fl % 2 = 1 then do
    let idx ← ram_read s (s.pc + 1)
    let v ← pyGet s.reg idx
    some { s with pc := v }
  else
    some { s with pc := s.pc + 2 }

/-- `jmp(self)`: jump to the operand register's value. -/
def jmp (s : CPUState) : Option CPUState := do
  let idx ← ram_read s (s.pc + 1)
  let v ← pyGet s.reg idx
  some { s with pc := v }

/-- `jne(self)`: jump to the operand register's value when bit 0 of
`fl` is clear, else `pc += 2`. -/
def jne (s : CPUState) : Option CPUState :=
  if s.fl % 2 = 0 then do
    let idx ← ram_read s (s.pc + 1)
    let v ← pyGet s.reg idx
    some { s with pc := v }
  else
    some { s with pc := s.pc + 2 }

/-- `ldi(self)`: store the immediate byte at `pc + 2` into the register
selected by the byte at `pc + 1`, then `pc += 3`.  The operand byte is
used as a list index directly, with no masking. -/
def ldi (s : CPUState) : Option CPUState := do
  let idx ← ram_read s (s.pc + 1)
  let v ← ram_read s (s.pc + 2)
  let r ← pySet s.reg idx v
  some { s with reg := r, pc := s.pc + 3 }

/-- `mul(self)`: ALU `MUL` on the two operand bytes, then `pc += 3`. -/
def mul (s : CPUState) : Option CPUState := do
  let a ← ram_read s (s.pc + 1)
  let b ← ram_read s (s.pc + 2)
  let s1 ← alu "MUL" a b s
  some { s1 with pc := s1.pc + 3 }

/-- `nop(self)`: `pc += 1`. -/
def nop (s : CPUState) : Option CPUState :=
  some { s with pc := s.pc + 1 }

/-- `pop(self)`: load the cell at SP into the operand register,
increment SP (re-read after the store, since the operand may be SP
itself), `pc += 2`, then evaluate the returned expression
`self.reg[self.ram_read(self.pc - 1)]` (its reads can still raise). -/
def pop (s : CPUState) : Option CPUState := do
  let idx ← ram_read s (s.pc + 1)
  let sp ← pyGet s.reg (SP : ℚ)
  let v ← ram_read s sp
  let r ← pySet s.reg idx v
  let s1 : CPUState := { s with reg := r }
  let sp1 ← pyGet s1.reg (SP : ℚ)
  let r1 ← pySet s1.reg (SP : ℚ) (sp1 + 1)
  let s2 : CPUState := { s1 with reg := r1, pc := s1.pc + 2 }
  let idx1 ← ram_read s2 (s2.pc - 1)
  let _ ← pyGet s2.reg idx1
  some s2

/-- `pra(self)`: print `chr` of the operand register's value.  Python
`chr` raises unless its argument is an integer in `[0, 0x110000)`.
The handler does not change `pc`. -/
def pra (s : CPUState) : Option CPUState := do
  let idx ← ram_read s (s.pc + 1)
  let v ← pyGet s.reg idx
  if v.den = 1 ∧ 0 ≤ v.num ∧ v.num < 0x110000 then
    some { s with output := s.output ++ [OutEvent.chr v] }
  else none

/-- `prn(self)`: print the operand register's value, then `pc += 2`. -/
def prn (s : CPUState) : Option CPUState := do
  let idx ← ram_read s (s.pc + 1)
  let v ← pyGet s.reg idx
  some { s with output := s.output ++ [OutEvent.num v], pc := s.pc + 2 }

/-- `push(self)`: decrement SP, store the operand register's value
(read after the decrement) at the new SP, then `pc += 2`. -/
def push (s : CPUState) : Option CPUState := do
  let sp ← pyGet s.reg (SP : ℚ)
  let r ← pySet s.reg (SP : ℚ) (sp - 1)
  let s1 : CPUState := { s with reg := r }
  let idx ← ram_read s1 (s1.pc + 1)
  let v ← pyGet s1.reg idx
  let sp1 ← pyGet s1.reg (SP : ℚ)
  let s2 ← ram_write s1 sp1 v
  some { s2 with pc := s2.pc + 2 }

/-- `ret(self)`: set `pc` to the cell at SP, clear that cell to 0,
then increment SP. -/
def ret (s : CPUState) : Option CPUState := do
  let sp ← pyGet s.reg (SP : ℚ)
  let v ← ram_read s sp
  let s1 : CPUState := { s with pc := v }
  let s2 ← ram_write s1 sp 0
  let sp1 ← pyGet s2.reg (SP : ℚ)
  let r ← pySet s2.reg (SP : ℚ) (sp1 + 1)
  some { s2 with reg := r }

/-- `st(self)`: store registerB's value at the address held in
registerA, then `pc += 3`. -/
def st (s : CPUState) : Option CPUState := do
  let ia ← ram_read s (s.pc + 1)
  let a ← pyGet s.reg ia
  let ib ← ram_read s (s.pc + 2)
  let b ← pyGet s.reg ib
  let s1 ← ram_write s a b
  some { s1 with pc := s1.pc + 3 }

/-- `inc(self)`, `inte(self)`, `iret(self)`: unimplemented stubs,
`pass`. -/
def stub (s : CPUState) : Option CPUState :=
  some s

/-- The dispatch branch table of `__init__`, applied to the byte at
`pc` (`self.dispatch[self.ram[self.pc]]()`); a byte with no entry is a
`KeyError` (`none`). -/
def dispatch (s : CPUState) : Option CPUState := do
  let op ← pyGet s.ram s.pc
  if op = 0b10100000 then add s
  else if op = 0b01010000 then call s
  else if op = 0b10100111 then comp s
  else if op = 0b10100011 then div s
  else if op = 0b00000001 then some (hlt s)
  else if op = 0b01100101 then stub s
  else if op = 0b01010010 then stub s
  else if op = 0b00010011 then stub s
  else if op = 0b01010101 then jeq s
  else if op = 0b01010100 then jmp s
  else if op = 0b01010110 then jne s
  else if op = 0b10000010 then ldi s
  else if op = 0b10100010 then mul s
  else if op = 0b00000000 then nop s
  else if op = 0b01000110 then pop s
  else if op = 0b01001000 then pra s
  else if op = 0b01000111 then prn s
  else if op = 0b01000101 then push s
  else if op = 0b00010001 then ret s
  else if op = 0b10000100 then st s
  else none

/-- One context-save push of the interrupt path in `run`:
`self.reg[SP] -= 1; self.ram_write(self.reg[SP], v)`. -/
def push_word (s : CPUState) (v : ℚ) : Option CPUState := do
  let sp ← pyGet s.reg (SP : ℚ)
  let r ← pySet s.reg (SP : ℚ) (sp - 1)
  let s1 : CPUState := { s with reg := r }
  let sp1 ← pyGet s1.reg (SP : ℚ)
  ram_write s1 sp1 v

/-- Fold of `push_word` over a list of values, mirroring the
`for register in self.reg[:6]` loop of the interrupt path. -/
def push_words (s : CPUState) : List ℚ → Option CPUState
  | [] => some s
  | v :: vs => do
    let s1 ← push_word s v
    push_words s1 vs

/-- The interrupt check at the top of `run`'s loop, with the wall-clock
difference `(now - self.last_time).seconds` passed in as `elapsed`.
When armed and due, it sets `IS := 1`, computes
`masked = self.reg[IM] & self.reg[IS]`, and scans `bin(masked)`'s
digits from the least significant end, servicing the interrupt at the
first set bit and breaking.  The loop body does not depend on the bit
position, so the scan is equivalent to servicing exactly when
`masked ≠ 0`.  Servicing latches `interrupts_disabled`, clears `IS`,
pushes `pc`, `fl` and registers `R0..R5` (a snapshot of
`self.reg[:6]`), and loads `pc` from the vector cell `0xF8`. -/
def run_interrupt_check (elapsed : ℕ) (s : CPUState) : Option CPUState :=
  if s.interrupts_disabled = false then do
    let im ← pyGet s.reg (IM : ℚ)
    if im.den = 1 then
      if im.num % 2 = 1 then
        if 1 ≤ elapsed then do
          let r1 ← pySet s.reg (IS : ℚ) 1
          let s1 : CPUState := { s with reg := r1 }
          let im1 ← pyGet s1.reg (IM : ℚ)
          let is1 ← pyGet s1.reg (IS : ℚ)
          if im1.den = 1 ∧ is1.den = 1 then
            let masked : ℤ := Int.land im1.num is1.num
            if masked ≠ 0 then do
              let s2 : CPUState := { s1 with interrupts_disabled := true }
              let r2 ← pySet s2.reg (IS : ℚ) 0
              let s3 : CPUState := { s2 with reg := r2 }
              let s4 ← push_word s3 s3.pc
              let s5 ← push_word s4 (s4.fl : ℚ)
              let s6 ← push_words s5 (s5.reg.take 6)
              let vec ← ram_read s6 ((0xF8 : ℕ) : ℚ)
              some { s6 with pc := vec }
            else some s1
          else none
        else some s
      else some s
    else none
  else some s

/-- One iteration of `run`'s `while self.running` body: the interrupt
check followed by dispatch on the byte at `pc`. -/
def step (elapsed : ℕ) (s : CPUState) : Option CPUState := do
  let s1 ← run_interrupt_check elapsed s
  dispatch s1

/-- The machine state built by `__init__`: zeroed 256-cell ram, eight
registers with `R7 = 0xF4`, `pc = 0`, `fl = 0`, not running, interrupts
enabled, no output yet. -/
def init : CPUState :=
  { ram := List.replicate 256 0
    reg := [0, 0, 0, 0, 0, 0, 0, 0xF4]
    pc := 0
    fl := 0
    running := false
    interrupts_disabled := false
    output := [] }

end LS8

namespace LS8

/-- A state with a program loaded at address 0, as `load` leaves it
(remaining ram cells zeroed). -/
def prog (bs : List ℚ) : CPUState :=
  { init with ram := bs ++ List.replicate (256 - bs.length) 0 }

theorem pyIdx_natCast (len n : ℕ) :
    pyIdx len (n : ℚ) = if n < len then some n else none := by
  simp [pyIdx, Int.ofNat_lt]

theorem pyGet_natCast (l : List ℚ) (n : ℕ) :
    pyGet l (n : ℚ) = if n < l.length then some (l.getD n 0) else none := by
  simp only [pyGet, pyIdx_natCast]
  split <;> rfl

theorem pySet_natCast (l : List ℚ) (n : ℕ) (v : ℚ) :
    pySet l (n : ℚ) v = if n < l.length then some (l.set n v) else none := by
  simp only [pySet, pyIdx_natCast]
  split <;> rfl

theorem cast_add_nat (p k : ℕ) : ((p : ℚ) + (k : ℚ)) = ((p + k : ℕ) : ℚ) := by
  push_cast
  ring

theorem cast_sub_succ (n k : ℕ) (h : k + 1 ≤ n) :
    ((n - k : ℕ) : ℚ) - 1 = ((n - (k + 1) : ℕ) : ℚ) := by
  have h1 : (n - k) = (n - (k + 1)) + 1 := by omega
  rw [h1]
  push_cast
  ring

end LS8

namespace LS8

/-- Concrete state for the PRA claim: `PRA R0` at address 0, register
`R0 = 65`. -/
def c1s : CPUState :=
  { prog [0x48, 0] with reg := [65, 0, 0, 0, 0, 0, 0, 0xF4] }

/-- Concrete state for the decode claim: `LDI` with operand byte 8 and
immediate 42. -/
def c2s : CPUState := prog [0x82, 8, 42]

/-- Same program as `c2s` but with operand byte 0 (the low 3 bits of
8). -/
def c2sb : CPUState := prog [0x82, 0, 42]

/-- Concrete state for the memory-bounds claim: cell 255 holds 42. -/
def c3s : CPUState := { init with ram := init.ram.set 255 42 }

/-- Concrete state for the ALU-integrality claim: `DIV R0,R1` at
address 0 with `R0 = 7`, `R1 = 2`. -/
def c9s : CPUState :=
  { prog [0xA3, 0, 1] with reg := [7, 2, 0, 0, 0, 0, 0, 0xF4] }

/-- Claim C1: the spec says PRA emits the character whose code is the
operand register's value and then advances PC by exactly 2.  The code
does emit the character, but the `pra` handler never advances `pc`: on
the concrete state `c1s` (PRA R0 at address 0, `R0 = 65`) executing the
instruction through the dispatch table emits `chr 65` and leaves
`pc = 0`, so the machine re-executes the PRA forever.  Every other
2-byte handler (`prn`, `push`, `pop`) ends with `pc += 2`; the missing
increment is a slip in the code and the spec states the intent. -/
theorem C1_pra_emits_but_pc_stuck :
    dispatch c1s = some { c1s with output := [OutEvent.chr 65] } ∧
    c1s.pc = 0 ∧ ({ c1s with output := [OutEvent.chr 65] } : CPUState).pc = 0 := by
  refine ⟨by decide, by decide, by decide⟩

/-- Claim C2, counterexample: the spec says a register operand byte's
low 3 bits select the register, so byte 8 would select register 0.  In
the code the operand byte indexes the register list directly: `ldi`
with operand byte 8 raises `IndexError` (modelled `none`), while the
same program with operand byte 0 writes register 0.  The two behaviours
differ, refuting the claim at operand byte 8. -/
theorem C2_counterexample :
    ldi c2s = none ∧
      ldi c2sb = some { c2sb with reg := [42, 0, 0, 0, 0, 0, 0, 0xF4], pc := 3 } := by
  constructor
  · decide
  · decide

/-- Claim C3, counterexample: the spec says every address outside
`[0, 256)` fails, in particular `-1`.  In the code `ram_read(-1)`
silently returns cell 255 (Python negative indexing) and
`ram_write(-1, v)` silently writes cell 255. -/
theorem C3_counterexample :
    ram_read c3s (-1) = some 42 ∧
      ram_write c3s (-1) 7 = some { c3s with ram := c3s.ram.set 255 7 } := by
  constructor
  · decide
  · decide

/-- Claim C9, counterexample: the spec calls the ALU operations integer
operations, but `DIV` uses Python true division.  Executing
`DIV R0,R1` with `R0 = 7`, `R1 = 2` writes `7/2 = 3.5` into `R0`,
which is not an integer (its denominator is 2, not 1). -/
theorem C9_counterexample :
    div c9s = some { c9s with reg := [(7 : ℚ) / 2, 2, 0, 0, 0, 0, 0, 0xF4], pc := 3 } ∧
    ((7 : ℚ) / 2).den ≠ 1 := by
  refine ⟨by decide, by decide⟩

end LS8

namespace LS8

theorem pyIdx_lt_length (len : ℕ) (i : ℚ) (n : ℕ) (h : pyIdx len i = some n) :
    n < len := by
  unfold pyIdx at h
  split_ifs at h <;> simp only [Option.some_inj] at h <;> omega

theorem pyGet_cast_lt (l : List ℚ) (n : ℕ) (h : n < l.length) :
    pyGet l (n : ℚ) = some (l.getD n 0) := by
  rw [pyGet_natCast, if_pos h]

theorem pySet_cast_lt (l : List ℚ) (n : ℕ) (v : ℚ) (h : n < l.length) :
    pySet l (n : ℚ) v = some (l.set n v) := by
  rw [pySet_natCast, if_pos h]

theorem getD_set_self (l : List ℚ) (n : ℕ) (v : ℚ) (h : n < l.length) :
    (l.set n v).getD n 0 = v := by
  simp [List.getD_eq_getElem?_getD, List.getElem?_set_self, h]

theorem getD_set_ne (l : List ℚ) (n m : ℕ) (v : ℚ) (h : n ≠ m) :
    (l.set n v).getD m 0 = l.getD m 0 := by
  simp [List.getD_eq_getElem?_getD, List.getElem?_set_ne h]

theorem rat_add_int (a b : ℚ) (ha : a.den = 1) (hb : b.den = 1) :
    (a + b).den = 1 := by
  obtain ⟨za, rfl⟩ : ∃ z : ℤ, a = (z : ℚ) :=
    ⟨a.num, ((Rat.den_eq_one_iff a).mp ha).symm⟩
  obtain ⟨zb, rfl⟩ : ∃ z : ℤ, b = (z : ℚ) :=
    ⟨b.num, ((Rat.den_eq_one_iff b).mp hb).symm⟩
  rw [← Int.cast_add za zb, Rat.den_intCast]

theorem rat_sub_int (a b : ℚ) (ha : a.den = 1) (hb : b.den = 1) :
    (a - b).den = 1 := by
  obtain ⟨za, rfl⟩ : ∃ z : ℤ, a = (z : ℚ) :=
    ⟨a.num, ((Rat.den_eq_one_iff a).mp ha).symm⟩
  obtain ⟨zb, rfl⟩ : ∃ z : ℤ, b = (z : ℚ) :=
    ⟨b.num, ((Rat.den_eq_one_iff b).mp hb).symm⟩
  rw [← Int.cast_sub za zb, Rat.den_intCast]

theorem rat_mul_int (a b : ℚ) (ha : a.den = 1) (hb : b.den = 1) :
    (a * b).den = 1 := by
  obtain ⟨za, rfl⟩ : ∃ z : ℤ, a = (z : ℚ) :=
    ⟨a.num, ((Rat.den_eq_one_iff a).mp ha).symm⟩
  obtain ⟨zb, rfl⟩ : ∃ z : ℤ, b = (z : ℚ) :=
    ⟨b.num, ((Rat.den_eq_one_iff b).mp hb).symm⟩
  rw [← Int.cast_mul za zb, Rat.den_intCast]

theorem land_one_ne_zero (z : ℤ) (h : z % 2 = 1) : Int.land z 1 ≠ 0 := by
  match z with
  | Int.ofNat n =>
    have h1 : (n : ℤ) % 2 = 1 := h
    have hn : n % 2 = 1 := by omega
    show Int.land (Int.ofNat n) (Int.ofNat 1) ≠ 0
    simp only [Int.land, Nat.and_one_is_mod, hn]
    decide
  | Int.negSucc m =>
    have h1 : Int.negSucc m = -(m + 1) := Int.negSucc_eq m
    rw [h1] at h
    have hm : m % 2 = 0 := by omega
    show Int.land (Int.negSucc m) (Int.ofNat 1) ≠ 0
    simp only [Int.land]
    intro hc
    have h0 : Nat.ldiff 1 m = 0 := by exact_mod_cast hc
    have h2 : (Nat.ldiff 1 m).testBit 0 = true := by
      rw [Nat.testBit_ldiff]
      simp [hm]
    rw [h0] at h2
    simp at h2

end LS8

namespace LS8

/-- Concrete state for the divide-by-zero claims: `DIV R0,R1` at
address 0 with `R0 = 7`, `R1 = 0`. -/
def c4s : CPUState :=
  { prog [0xA3, 0, 1] with reg := [7, 0, 0, 0, 0, 0, 0, 0xF4] }

/-- Concrete state for the comparison claim: `COMP R0,R1` at address 0
with `R0 = 5`, `R1 = 5`. -/
def c8s : CPUState :=
  { prog [0xA7, 0, 1] with reg := [5, 5, 0, 0, 0, 0, 0, 0xF4] }

/-- Claim C4: executing `DIV` when the divisor (source) register holds
0 raises no exception (the handler returns a state, `none` would model
a raised exception): the fault is reported by printing the
division-by-zero error, and the running flag is cleared so the
execution loop halts. -/
theorem C4_div_by_zero_reports_and_halts (s : CPUState) (ia ib : ℚ)
    (h1 : ram_read s (s.pc + 1) = some ia)
    (h2 : ram_read s (s.pc + 2) = some ib)
    (h3 : pyGet s.reg ib = some 0) :
    ∃ t, div s = some t ∧ t.running = false ∧
      t.output = s.output ++ [OutEvent.errDivZero] := by
  refine ⟨{ s with
      output := s.output ++ [OutEvent.errDivZero]
      running := false
      pc := s.pc + 3 }, ?_, rfl, rfl⟩
  unfold div alu
  rw [h1]
  simp only [Option.bind_eq_bind, Option.some_bind]
  rw [h2]
  simp only [Option.bind_eq_bind, Option.some_bind]
  norm_num
  rw [h3]
  simp [hlt]

/-- Witness for C4 at the concrete state `c4s`. -/
theorem C4_witness :
    ∃ t, div c4s = some t ∧ t.running = false ∧
      t.output = c4s.output ++ [OutEvent.errDivZero] :=
  C4_div_by_zero_reports_and_halts c4s 0 1 (by decide) (by decide) (by decide)

/-- Claim C10: on the divide-by-zero fault path of `DIV` the machine
state is unchanged apart from halting and the printed report: every
register keeps its value (in particular the destination), ram and the
flags are untouched, and `pc` still advances by 3 exactly as on a
successful `DIV`. -/
theorem C10_div_by_zero_frame (s : CPUState) (ia ib : ℚ)
    (h1 : ram_read s (s.pc + 1) = some ia)
    (h2 : ram_read s (s.pc + 2) = some ib)
    (h3 : pyGet s.reg ib = some 0) :
    ∃ t, div s = some t ∧ t.reg = s.reg ∧ t.ram = s.ram ∧ t.fl = s.fl ∧
      t.pc = s.pc + 3 ∧ t.running = false ∧
      t.output = s.output ++ [OutEvent.errDivZero] := by
  refine ⟨{ s with
      output := s.output ++ [OutEvent.errDivZero]
      running := false
      pc := s.pc + 3 }, ?_, rfl, rfl, rfl, rfl, rfl, rfl⟩
  unfold div alu
  rw [h1]
  simp only [Option.bind_eq_bind, Option.some_bind]
  rw [h2]
  simp only [Option.bind_eq_bind, Option.some_bind]
  norm_num
  rw [h3]
  simp [hlt]

/-- Witness for C10 at the concrete state `c4s`. -/
theorem C10_witness :
    ∃ t, div c4s = some t ∧ t.reg = c4s.reg ∧ t.ram = c4s.ram ∧
      t.fl = c4s.fl ∧ t.pc = c4s.pc + 3 ∧ t.running = false ∧
      t.output = c4s.output ++ [OutEvent.errDivZero] :=
  C10_div_by_zero_frame c4s 0 1 (by decide) (by decide) (by decide)

/-- Claim C8: `COMP` on register values `a`, `b` sets exactly one flag
bit — Equal (bit 0) iff `a = b`, Less-than (bit 2) iff `a < b`,
Greater-than (bit 1) iff `a > b` — the resulting flags byte is 1, 2 or
4 (so the bits are mutually exclusive), and `pc` advances by 3. -/
theorem C8_comp_flags (s : CPUState) (ia ib a b : ℚ)
    (h1 : ram_read s (s.pc + 1) = some ia)
    (h2 : pyGet s.reg ia = some a)
    (h3 : ram_read s (s.pc + 2) = some ib)
    (h4 : pyGet s.reg ib = some b) :
    ∃ t, comp s = some t ∧ t.pc = s.pc + 3 ∧
      (t.fl.testBit 0 = true ↔ a = b) ∧
      (t.fl.testBit 2 = true ↔ a < b) ∧
      (t.fl.testBit 1 = true ↔ b < a) ∧
      (t.fl = 1 ∨ t.fl = 2 ∨ t.fl = 4) := by
  have hcomp : comp s = some { s with
      fl := if a = b then 1 else if a < b then 4 else if a > b then 2 else s.fl
      pc := s.pc + 3 } := by
    unfold comp
    rw [h1]
    simp only [Option.bind_eq_bind, Option.some_bind]
    rw [h2]
    simp only [Option.bind_eq_bind, Option.some_bind]
    rw [h3]
    simp only [Option.bind_eq_bind, Option.some_bind]
    rw [h4]
    simp only [Option.bind_eq_bind, Option.some_bind]
  rcases lt_trichotomy a b with hab | hab | hab
  · rw [if_neg (ne_of_lt hab), if_pos hab] at hcomp
    refine ⟨_, hcomp, rfl, ?_, ?_, ?_, by norm_num⟩
    · rw [show (4 : ℕ).testBit 0 = false from by decide]
      simp [ne_of_lt hab]
    · rw [show (4 : ℕ).testBit 2 = true from by decide]
      simp [hab]
    · rw [show (4 : ℕ).testBit 1 = false from by decide]
      simp [lt_asymm hab]
  · rw [if_pos hab] at hcomp
    refine ⟨_, hcomp, rfl, ?_, ?_, ?_, by norm_num⟩
    · rw [show (1 : ℕ).testBit 0 = true from by decide]
      simp [hab]
    · rw [show (1 : ℕ).testBit 2 = false from by decide]
      simp [hab]
    · rw [show (1 : ℕ).testBit 1 = false from by decide]
      simp [hab]
  · rw [if_neg (ne_of_gt hab), if_neg (not_lt_of_gt hab), if_pos hab] at hcomp
    refine ⟨_, hcomp, rfl, ?_, ?_, ?_, by norm_num⟩
    · rw [show (2 : ℕ).testBit 0 = false from by decide]
      simp [ne_of_gt hab]
    · rw [show (2 : ℕ).testBit 2 = false from by decide]
      simp [lt_asymm hab]
    · rw [show (2 : ℕ).testBit 1 = true from by decide]
      simp [hab]

/-- Witness for C8 at the concrete state `c8s` (equal values). -/
theorem C8_witness :
    ∃ t, comp c8s = some t ∧ t.pc = c8s.pc + 3 ∧
      (t.fl.testBit 0 = true ↔ (5 : ℚ) = 5) ∧
      (t.fl.testBit 2 = true ↔ (5 : ℚ) < 5) ∧
      (t.fl.testBit 1 = true ↔ (5 : ℚ) < 5) ∧
      (t.fl = 1 ∨ t.fl = 2 ∨ t.fl = 4) :=
  C8_comp_flags c8s 0 1 5 5 (by decide) (by decide) (by decide) (by decide)

end LS8

namespace LS8

theorem pyIdx_intCast (len : ℕ) (z : ℤ) :
    pyIdx len ((z : ℤ) : ℚ) =
      if 0 ≤ z then (if z < (len : ℤ) then some z.toNat else none)
      else (if 0 ≤ z + len then some (z + len).toNat else none) := by
  simp [pyIdx]

theorem pyGet_pySet_self (l : List ℚ) (i : ℚ) (a v : ℚ)
    (h : pyGet l i = some a) :
    ∃ l2, pySet l i v = some l2 ∧ pyGet l2 i = some v := by
  unfold pyGet at h
  obtain ⟨n, hn, -⟩ := Option.map_eq_some'.mp h
  have hlt := pyIdx_lt_length _ _ _ hn
  refine ⟨l.set n v, ?_, ?_⟩
  · unfold pySet
    rw [hn]
    rfl
  · unfold pyGet
    rw [List.length_set, hn]
    simp [List.getD_eq_getElem?_getD, List.getElem?_set_eq_of_lt _ hlt]

/-- Claim C3, amended: `ram_read`/`ram_write` fail with an
out-of-bounds condition exactly for integer addresses `z ≥ 256` or
`z < -256`; an address in `[-256, -1]` does not fail but silently
accesses cell `z + 256`. -/
theorem C3_amended_bounds (s : CPUState) (z : ℤ) (v : ℚ)
    (hlen : s.ram.length = 256) :
    ((z < -256 ∨ 256 ≤ z) →
        ram_read s ((z : ℤ) : ℚ) = none ∧ ram_write s ((z : ℤ) : ℚ) v = none) ∧
    ((-256 ≤ z ∧ z < 0) →
        ram_read s ((z : ℤ) : ℚ) = some (s.ram.getD (z + 256).toNat 0) ∧
          ram_write s ((z : ℤ) : ℚ) v =
            some { s with ram := s.ram.set (z + 256).toNat v }) := by
  constructor
  · intro hz
    unfold ram_read pyGet ram_write pySet
    rw [hlen, pyIdx_intCast]
    rcases hz with hz | hz
    · rw [if_neg (by omega), if_neg (by omega)]
      exact ⟨rfl, rfl⟩
    · rw [if_pos (by omega), if_neg (by omega)]
      exact ⟨rfl, rfl⟩
  · intro hz
    unfold ram_read pyGet ram_write pySet
    rw [hlen, pyIdx_intCast]
    rw [if_neg (by omega), if_pos (by omega)]
    exact ⟨rfl, rfl⟩

/-- Witness for the amended C3 at address `-1` on the concrete state
`c3s`. -/
theorem C3_witness :
    ram_read c3s ((-1 : ℤ) : ℚ) = some (c3s.ram.getD 255 0) ∧
    ram_write c3s ((-1 : ℤ) : ℚ) 7 = some { c3s with ram := c3s.ram.set 255 7 } :=
  (C3_amended_bounds c3s (-1) 7 (by decide)).2 (by norm_num)

/-- Claim C9, amended: for ADD, SUB and MUL on integer register values
the value written back to the destination register is an integer; for
DIV with a nonzero divisor the value written back is the exact true
quotient `a / b`, which need not be an integer. -/
theorem C9_amended_integrality (op : String) (s : CPUState) (ia ib a b : ℚ)
    (h2 : pyGet s.reg ia = some a)
    (h4 : pyGet s.reg ib = some b)
    (ha : a.den = 1) (hb : b.den = 1) :
    ((op = "ADD" ∨ op = "SUB" ∨ op = "MUL") →
      ∃ t q, alu op ia ib s = some t ∧ pyGet t.reg ia = some q ∧ q.den = 1) ∧
    (op = "DIV" → b ≠ 0 →
      ∃ t, alu op ia ib s = some t ∧ pyGet t.reg ia = some (a / b)) := by
  constructor
  · intro hop
    rcases hop with hop | hop | hop
    · subst hop
      obtain ⟨l2, hset, hget⟩ := pyGet_pySet_self s.reg ia a (a + b) h2
      refine ⟨{ s with reg := l2 }, a + b, ?_, hget, rat_add_int a b ha hb⟩
      unfold alu
      rw [if_pos rfl, h2]
      simp only [Option.bind_eq_bind, Option.some_bind]
      rw [h4]
      simp only [Option.bind_eq_bind, Option.some_bind]
      rw [hset]
      rfl
    · subst hop
      obtain ⟨l2, hset, hget⟩ := pyGet_pySet_self s.reg ia a (a - b) h2
      refine ⟨{ s with reg := l2 }, a - b, ?_, hget, rat_sub_int a b ha hb⟩
      unfold alu
      rw [if_neg (by decide), if_pos rfl, h2]
      simp only [Option.bind_eq_bind, Option.some_bind]
      rw [h4]
      simp only [Option.bind_eq_bind, Option.some_bind]
      rw [hset]
      rfl
    · subst hop
      obtain ⟨l2, hset, hget⟩ := pyGet_pySet_self s.reg ia a (a * b) h2
      refine ⟨{ s with reg := l2 }, a * b, ?_, hget, rat_mul_int a b ha hb⟩
      unfold alu
      rw [if_neg (by decide), if_neg (by decide), if_pos rfl, h2]
      simp only [Option.bind_eq_bind, Option.some_bind]
      rw [h4]
      simp only [Option.bind_eq_bind, Option.some_bind]
      rw [hset]
      rfl
  · intro hop hbz
    subst hop
    obtain ⟨l2, hset, hget⟩ := pyGet_pySet_self s.reg ia a (a / b) h2
    refine ⟨{ s with reg := l2 }, ?_, hget⟩
    unfold alu
    rw [if_neg (by decide), if_neg (by decide), if_neg (by decide),
      if_pos rfl, h4]
    simp only [Option.bind_eq_bind, Option.some_bind]
    rw [if_neg hbz, h2]
    simp only [Option.bind_eq_bind, Option.some_bind]
    rw [hset]
    rfl

/-- Witness for the amended C9 on the concrete state `c8s`
(`R0 = R1 = 5`): ADD writes an integer, DIV writes the exact quotient. -/
theorem C9_witness :
    (∃ t q, alu "ADD" 0 1 c8s = some t ∧ pyGet t.reg 0 = some q ∧ q.den = 1) ∧
    (∃ t, alu "DIV" 0 1 c8s = some t ∧ pyGet t.reg 0 = some ((5 : ℚ) / 5)) :=
  ⟨(C9_amended_integrality "ADD" c8s 0 1 5 5 (by decide) (by decide)
      (by decide) (by decide)).1 (Or.inl rfl),
   (C9_amended_integrality "DIV" c8s 0 1 5 5 (by decide) (by decide)
      (by decide) (by decide)).2 rfl (by norm_num)⟩

end LS8

namespace LS8

theorem cast_sub_one (n : ℕ) (h : 1 ≤ n) :
    ((n : ℕ) : ℚ) - 1 = ((n - 1 : ℕ) : ℚ) := by
  rw [Nat.cast_sub h]
  norm_num

theorem cast_sub_one_add (n : ℕ) (h : 1 ≤ n) :
    ((n - 1 : ℕ) : ℚ) + 1 = ((n : ℕ) : ℚ) := by
  have h1 : n = (n - 1) + 1 := by omega
  nth_rewrite 2 [h1]
  push_cast
  ring

theorem cast_p1 (p : ℕ) : ((p : ℚ) + 1) = ((p + 1 : ℕ) : ℚ) := by
  push_cast
  ring

theorem cast_p2 (p : ℕ) : ((p : ℚ) + 2) = ((p + 2 : ℕ) : ℚ) := by
  push_cast
  ring

/-- Characterisation of `push` on a well-formed state: SP is
decremented, the operand register's value (read after the decrement)
is stored at the new SP, and `pc` advances by 2. -/
theorem push_eq (s : CPUState) (p sp r : ℕ)
    (hram : s.ram.length = 256) (hreg : s.reg.length = 8)
    (hpc : s.pc = (p : ℚ))
    (hsp : s.reg.getD 7 0 = ((sp : ℕ) : ℚ))
    (hsp1 : 1 ≤ sp) (hsp2 : sp ≤ 256)
    (hb1 : s.ram.getD (p + 1) 0 = ((r : ℕ) : ℚ))
    (hp1 : p + 1 < 256) (hr : r < 8) :
    push s = some { s with
      reg := s.reg.set 7 ((sp - 1 : ℕ) : ℚ)
      ram := s.ram.set (sp - 1) ((s.reg.set 7 ((sp - 1 : ℕ) : ℚ)).getD r 0)
      pc := (p : ℚ) + 2 } := by
  have h7 : (7 : ℕ) < s.reg.length := by omega
  have h7b : (7 : ℕ) < (s.reg.set 7 ((sp - 1 : ℕ) : ℚ)).length := by
    rw [List.length_set]
    omega
  have hrb : r < (s.reg.set 7 ((sp - 1 : ℕ) : ℚ)).length := by
    rw [List.length_set]
    omega
  have hp1b : p + 1 < s.ram.length := by omega
  have hw : sp - 1 < s.ram.length := by omega
  unfold push ram_read ram_write
  simp only [SP]
  rw [pyGet_cast_lt s.reg 7 h7, hsp]
  simp only [Option.bind_eq_bind, Option.some_bind]
  rw [cast_sub_one sp hsp1, pySet_cast_lt s.reg 7 _ h7]
  simp only [Option.bind_eq_bind, Option.some_bind]
  rw [hpc, cast_p1 p, pyGet_cast_lt s.ram (p + 1) hp1b, hb1]
  simp only [Option.bind_eq_bind, Option.some_bind]
  rw [pyGet_cast_lt _ r hrb]
  simp only [Option.bind_eq_bind, Option.some_bind]
  rw [pyGet_cast_lt _ 7 h7b, getD_set_self s.reg 7 _ h7]
  simp only [Option.bind_eq_bind, Option.some_bind]
  rw [pySet_cast_lt s.ram (sp - 1) _ hw]
  simp only [Option.map_some', Option.bind_eq_bind, Option.some_bind]

end LS8

namespace LS8

/-- Characterisation of `pop` on a well-formed state: the cell at SP
is loaded into the operand register, SP (re-read after that store) is
incremented, and `pc` advances by 2. -/
theorem pop_eq (s : CPUState) (p sp r : ℕ)
    (hram : s.ram.length = 256) (hreg : s.reg.length = 8)
    (hpc : s.pc = (p : ℚ))
    (hsp : s.reg.getD 7 0 = ((sp : ℕ) : ℚ))
    (hsp2 : sp < 256)
    (hb1 : s.ram.getD (p + 1) 0 = ((r : ℕ) : ℚ))
    (hp1 : p + 1 < 256) (hr : r < 8) :
    pop s = some { s with
      reg := (s.reg.set r (s.ram.getD sp 0)).set 7
        ((s.reg.set r (s.ram.getD sp 0)).getD 7 0 + 1)
      pc := (p : ℚ) + 2 } := by
  have hp1b : p + 1 < s.ram.length := by omega
  have hspb : sp < s.ram.length := by omega
  have h7 : (7 : ℕ) < s.reg.length := by omega
  have hrb : r < s.reg.length := by omega
  have h7c : (7 : ℕ) < (s.reg.set r (s.ram.getD sp 0)).length := by
    rw [List.length_set]
    omega
  have hrc :
      r < ((s.reg.set r (s.ram.getD sp 0)).set 7
        ((s.reg.set r (s.ram.getD sp 0)).getD 7 0 + 1)).length := by
    rw [List.length_set, List.length_set]
    omega
  have hc : ((p : ℚ) + 2) - 1 = ((p + 1 : ℕ) : ℚ) := by
    push_cast
    ring
  unfold pop ram_read
  simp only [SP]
  rw [hpc, cast_p1 p, pyGet_cast_lt s.ram (p + 1) hp1b, hb1]
  simp only [Option.bind_eq_bind, Option.some_bind]
  rw [pyGet_cast_lt s.reg 7 h7, hsp]
  simp only [Option.bind_eq_bind, Option.some_bind]
  rw [pyGet_cast_lt s.ram sp hspb]
  simp only [Option.bind_eq_bind, Option.some_bind]
  rw [pySet_cast_lt s.reg r _ hrb]
  simp only [Option.bind_eq_bind, Option.some_bind]
  rw [pyGet_cast_lt _ 7 h7c]
  simp only [Option.bind_eq_bind, Option.some_bind]
  rw [pySet_cast_lt _ 7 _ h7c]
  simp only [Option.bind_eq_bind, Option.some_bind]
  rw [hc, pyGet_cast_lt s.ram (p + 1) hp1b, hb1]
  simp only [Option.bind_eq_bind, Option.some_bind]
  rw [pyGet_cast_lt _ r hrc]
  simp only [Option.bind_eq_bind, Option.some_bind]

end LS8

namespace LS8

/-- Concrete state for the push/pop claim: `PUSH R2` at 0, `POP R2`
at 2, `R2 = 99`. -/
def c6s : CPUState :=
  { prog [0x45, 2, 0x46, 2] with reg := [0, 0, 99, 0, 0, 0, 0, 0xF4] }

/-- Claim C6: `PUSH r` followed by `POP r` (the `POP` sitting right
after the `PUSH` in the program) leaves register `r` with its original
value and SP back at its pre-push value.  This holds for every
register index, including `r = 7` (SP itself). -/
theorem C6_push_pop_roundtrip (s : CPUState) (p sp r : ℕ)
    (hram : s.ram.length = 256) (hreg : s.reg.length = 8)
    (hpc : s.pc = (p : ℚ))
    (hsp : s.reg.getD 7 0 = ((sp : ℕ) : ℚ))
    (hsp1 : 1 ≤ sp) (hsp2 : sp ≤ 256)
    (hb1 : s.ram.getD (p + 1) 0 = ((r : ℕ) : ℚ))
    (hb2 : s.ram.getD (p + 3) 0 = ((r : ℕ) : ℚ))
    (hp3 : p + 3 < 256) (hr : r < 8)
    (hclob : sp - 1 ≠ p + 3) :
    ∃ t1 t2, push s = some t1 ∧ pop t1 = some t2 ∧
      t2.reg.getD r 0 = s.reg.getD r 0 ∧
      t2.reg.getD 7 0 = ((sp : ℕ) : ℚ) := by
  have hpush := push_eq s p sp r hram hreg hpc hsp hsp1 hsp2 hb1 (by omega) hr
  set t1 : CPUState := { s with
      reg := s.reg.set 7 ((sp - 1 : ℕ) : ℚ)
      ram := s.ram.set (sp - 1) ((s.reg.set 7 ((sp - 1 : ℕ) : ℚ)).getD r 0)
      pc := (p : ℚ) + 2 } with ht1
  have hlt1reg : t1.reg.length = 8 := by
    simp only [ht1]
    rw [List.length_set]
    exact hreg
  have hlt1ram : t1.ram.length = 256 := by
    simp only [ht1]
    rw [List.length_set]
    exact hram
  have h31 : p + 2 + 1 = p + 3 := by omega
  have hpop := pop_eq t1 (p + 2) (sp - 1) r hlt1ram hlt1reg
    (by simp only [ht1]; exact cast_p2 p)
    (by simp only [ht1]; exact getD_set_self s.reg 7 _ (by omega))
    (by omega)
    (by simp only [ht1, h31]; rw [getD_set_ne _ _ _ _ hclob]; exact hb2)
    (by omega) hr
  refine ⟨t1, _, hpush, hpop, ?_, ?_⟩
  · by_cases h7r : r = 7
    · subst h7r
      have hv : t1.ram.getD (sp - 1) 0 = ((sp - 1 : ℕ) : ℚ) := by
        simp only [ht1]
        rw [getD_set_self _ _ _ (by omega), getD_set_self _ _ _ (by omega)]
      show ((t1.reg.set 7 (t1.ram.getD (sp - 1) 0)).set 7
        ((t1.reg.set 7 (t1.ram.getD (sp - 1) 0)).getD 7 0 + 1)).getD 7 0
        = s.reg.getD 7 0
      rw [getD_set_self _ _ _ (by rw [List.length_set]; omega)]
      rw [getD_set_self _ _ _ (by omega)]
      rw [hv, hsp, cast_sub_one_add sp hsp1]
    · have hv : t1.ram.getD (sp - 1) 0 = s.reg.getD r 0 := by
        simp only [ht1]
        rw [getD_set_self _ _ _ (by omega), getD_set_ne _ _ _ _ (by omega)]
      show ((t1.reg.set r (t1.ram.getD (sp - 1) 0)).set 7
        ((t1.reg.set r (t1.ram.getD (sp - 1) 0)).getD 7 0 + 1)).getD r 0
        = s.reg.getD r 0
      rw [getD_set_ne _ _ _ _ (by omega : (7 : ℕ) ≠ r)]
      rw [getD_set_self _ _ _ (by omega)]
      exact hv
  · by_cases h7r : r = 7
    · subst h7r
      have hv : t1.ram.getD (sp - 1) 0 = ((sp - 1 : ℕ) : ℚ) := by
        simp only [ht1]
        rw [getD_set_self _ _ _ (by omega), getD_set_self _ _ _ (by omega)]
      show ((t1.reg.set 7 (t1.ram.getD (sp - 1) 0)).set 7
        ((t1.reg.set 7 (t1.ram.getD (sp - 1) 0)).getD 7 0 + 1)).getD 7 0
        = ((sp : ℕ) : ℚ)
      rw [getD_set_self _ _ _ (by rw [List.length_set]; omega)]
      rw [getD_set_self _ _ _ (by omega)]
      rw [hv, cast_sub_one_add sp hsp1]
    · show ((t1.reg.set r (t1.ram.getD (sp - 1) 0)).set 7
        ((t1.reg.set r (t1.ram.getD (sp - 1) 0)).getD 7 0 + 1)).getD 7 0
        = ((sp : ℕ) : ℚ)
      rw [getD_set_self _ _ _ (by rw [List.length_set]; omega)]
      rw [getD_set_ne _ _ _ _ h7r]
      have ht7 : t1.reg.getD 7 0 = ((sp - 1 : ℕ) : ℚ) := by
        simp only [ht1]
        exact getD_set_self _ _ _ (by omega)
      rw [ht7, cast_sub_one_add sp hsp1]

/-- Witness for C6 on the concrete state `c6s` (`PUSH R2` then
`POP R2` with `R2 = 99`, SP = 0xF4). -/
theorem C6_witness :
    ∃ t1 t2, push c6s = some t1 ∧ pop t1 = some t2 ∧
      t2.reg.getD 2 0 = c6s.reg.getD 2 0 ∧
      t2.reg.getD 7 0 = ((244 : ℕ) : ℚ) :=
  C6_push_pop_roundtrip c6s 0 244 2 (by decide) (by decide) (by decide)
    (by decide) (by decide) (by decide) (by decide) (by decide) (by decide)
    (by decide) (by decide)

end LS8

namespace LS8

/-- Characterisation of `call` (with a general-purpose operand
register `r ≠ 7`): SP is decremented, `pc + 2` is stored at the new
SP, and `pc` is loaded from register `r`. -/
theorem call_eq (s : CPUState) (p sp r : ℕ) (A : ℚ)
    (hram : s.ram.length = 256) (hreg : s.reg.length = 8)
    (hpc : s.pc = (p : ℚ))
    (hsp : s.reg.getD 7 0 = ((sp : ℕ) : ℚ))
    (hsp1 : 1 ≤ sp) (hsp2 : sp ≤ 256)
    (hb1 : s.ram.getD (p + 1) 0 = ((r : ℕ) : ℚ))
    (hp1 : p + 1 < 256) (hr : r < 8) (hr7 : r ≠ 7)
    (hclob : sp - 1 ≠ p + 1)
    (hA : s.reg.getD r 0 = A) :
    call s = some { s with
      reg := s.reg.set 7 ((sp - 1 : ℕ) : ℚ)
      ram := s.ram.set (sp - 1) ((p : ℚ) + 2)
      pc := A } := by
  have h7 : (7 : ℕ) < s.reg.length := by omega
  have h7b : (7 : ℕ) < (s.reg.set 7 ((sp - 1 : ℕ) : ℚ)).length := by
    rw [List.length_set]
    omega
  have hrb : r < (s.reg.set 7 ((sp - 1 : ℕ) : ℚ)).length := by
    rw [List.length_set]
    omega
  have hw : sp - 1 < s.ram.length := by omega
  have hp1c : p + 1 < (s.ram.set (sp - 1) ((p : ℚ) + 2)).length := by
    rw [List.length_set]
    omega
  unfold call ram_read ram_write
  simp only [SP]
  rw [pyGet_cast_lt s.reg 7 h7, hsp]
  simp only [Option.bind_eq_bind, Option.some_bind]
  rw [cast_sub_one sp hsp1, pySet_cast_lt s.reg 7 _ h7]
  simp only [Option.bind_eq_bind, Option.some_bind]
  rw [pyGet_cast_lt _ 7 h7b, getD_set_self s.reg 7 _ h7]
  simp only [Option.bind_eq_bind, Option.some_bind]
  rw [hpc, pySet_cast_lt s.ram (sp - 1) _ hw]
  simp only [Option.map_some', Option.bind_eq_bind, Option.some_bind]
  rw [cast_p1 p, pyGet_cast_lt _ (p + 1) hp1c,
    getD_set_ne _ _ _ _ hclob, hb1]
  simp only [Option.bind_eq_bind, Option.some_bind]
  rw [pyGet_cast_lt _ r hrb, getD_set_ne _ _ _ _ (by omega : (7 : ℕ) ≠ r), hA]
  simp only [Option.bind_eq_bind, Option.some_bind]

/-- Characterisation of `ret`: `pc` is loaded from the cell at SP,
that cell is cleared to 0, and SP is incremented. -/
theorem ret_eq (s : CPUState) (k : ℕ)
    (hram : s.ram.length = 256) (hreg : s.reg.length = 8)
    (hsp : s.reg.getD 7 0 = ((k : ℕ) : ℚ))
    (hk : k < 256) :
    ret s = some { s with
      reg := s.reg.set 7 (((k : ℕ) : ℚ) + 1)
      ram := s.ram.set k 0
      pc := s.ram.getD k 0 } := by
  have h7 : (7 : ℕ) < s.reg.length := by omega
  have hkb : k < s.ram.length := by omega
  unfold ret ram_read ram_write
  simp only [SP]
  rw [pyGet_cast_lt s.reg 7 h7, hsp]
  simp only [Option.bind_eq_bind, Option.some_bind]
  rw [pyGet_cast_lt s.ram k hkb]
  simp only [Option.bind_eq_bind, Option.some_bind]
  rw [pySet_cast_lt s.ram k _ hkb]
  simp only [Option.map_some', Option.bind_eq_bind, Option.some_bind]
  rw [pyGet_cast_lt s.reg 7 h7, hsp]
  simp only [Option.bind_eq_bind, Option.some_bind]
  rw [pySet_cast_lt s.reg 7 _ h7]
  simp only [Option.bind_eq_bind, Option.some_bind]

end LS8

namespace LS8

/-- Concrete state for the call/ret claim: `CALL R3` at 0 with
`R3 = 10`. -/
def c7s : CPUState :=
  { prog [0x50, 3] with reg := [0, 0, 0, 10, 0, 0, 0, 0xF4] }

/-- Claim C7: `CALL` at address `P` whose operand register `r` holds
`A` pushes `P + 2` onto the stack and sets `pc := A`; an immediately
following balanced `RET` restores `pc` to `P + 2`, moves SP back up to
its pre-call value, and clears the vacated stack cell to 0. -/
theorem C7_call_ret (s : CPUState) (p sp r : ℕ) (A : ℚ)
    (hram : s.ram.length = 256) (hreg : s.reg.length = 8)
    (hpc : s.pc = (p : ℚ))
    (hsp : s.reg.getD 7 0 = ((sp : ℕ) : ℚ))
    (hsp1 : 1 ≤ sp) (hsp2 : sp ≤ 256)
    (hb1 : s.ram.getD (p + 1) 0 = ((r : ℕ) : ℚ))
    (hp1 : p + 1 < 256) (hr : r < 8) (hr7 : r ≠ 7)
    (hclob : sp - 1 ≠ p + 1)
    (hA : s.reg.getD r 0 = A) :
    ∃ t1 t2, call s = some t1 ∧ ret t1 = some t2 ∧
      t1.pc = A ∧ t1.ram.getD (sp - 1) 0 = (p : ℚ) + 2 ∧
      t2.pc = (p : ℚ) + 2 ∧ t2.reg.getD 7 0 = ((sp : ℕ) : ℚ) ∧
      t2.ram.getD (sp - 1) 0 = 0 := by
  have hcall := call_eq s p sp r A hram hreg hpc hsp hsp1 hsp2 hb1 hp1 hr
    hr7 hclob hA
  set t1 : CPUState := { s with
      reg := s.reg.set 7 ((sp - 1 : ℕ) : ℚ)
      ram := s.ram.set (sp - 1) ((p : ℚ) + 2)
      pc := A } with ht1
  have hlt1reg : t1.reg.length = 8 := by
    simp only [ht1]
    rw [List.length_set]
    exact hreg
  have hlt1ram : t1.ram.length = 256 := by
    simp only [ht1]
    rw [List.length_set]
    exact hram
  have hret := ret_eq t1 (sp - 1) hlt1ram hlt1reg
    (by simp only [ht1]; exact getD_set_self s.reg 7 _ (by omega))
    (by omega)
  refine ⟨t1, _, hcall, hret, rfl, ?_, ?_, ?_, ?_⟩
  · simp only [ht1]
    exact getD_set_self s.ram (sp - 1) _ (by omega)
  · show t1.ram.getD (sp - 1) 0 = (p : ℚ) + 2
    simp only [ht1]
    exact getD_set_self s.ram (sp - 1) _ (by omega)
  · show (t1.reg.set 7 (((sp - 1 : ℕ) : ℚ) + 1)).getD 7 0 = ((sp : ℕ) : ℚ)
    rw [getD_set_self _ _ _ (by omega), cast_sub_one_add sp hsp1]
  · show (t1.ram.set (sp - 1) 0).getD (sp - 1) 0 = 0
    exact getD_set_self _ _ _ (by omega)

/-- Witness for C7 on the concrete state `c7s` (`CALL R3` at 0,
`R3 = 10`, SP = 0xF4). -/
theorem C7_witness :
    ∃ t1 t2, call c7s = some t1 ∧ ret t1 = some t2 ∧
      t1.pc = 10 ∧ t1.ram.getD 243 0 = (0 : ℚ) + 2 ∧
      t2.pc = (0 : ℚ) + 2 ∧ t2.reg.getD 7 0 = ((244 : ℕ) : ℚ) ∧
      t2.ram.getD 243 0 = 0 :=
  C7_call_ret c7s 0 244 3 10 (by decide) (by decide) (by decide) (by decide)
    (by decide) (by decide) (by decide) (by decide) (by decide) (by decide)
    (by decide) (by decide)

end LS8

namespace LS8

/-- Characterisation of one interrupt context-save push on a literal
register file: SP (register 7) is decremented and `v` is written at
the new SP. -/
theorem push_word_eq (s : CPUState) (a0 a1 a2 a3 a4 a5 a6 : ℚ) (k : ℕ) (v : ℚ)
    (hreg : s.reg = [a0, a1, a2, a3, a4, a5, a6, ((k : ℕ) : ℚ)])
    (hram : s.ram.length = 256)
    (hk1 : 1 ≤ k) (hk2 : k ≤ 256) :
    push_word s v = some { s with
      reg := [a0, a1, a2, a3, a4, a5, a6, ((k - 1 : ℕ) : ℚ)]
      ram := s.ram.set (k - 1) v } := by
  have hw : k - 1 < s.ram.length := by omega
  unfold push_word ram_write
  simp only [SP]
  rw [hreg]
  rw [pyGet_cast_lt _ 7 (by simp)]
  rw [show ([a0, a1, a2, a3, a4, a5, a6, ((k : ℕ) : ℚ)] : List ℚ).getD 7 0
    = ((k : ℕ) : ℚ) from rfl]
  simp only [Option.bind_eq_bind, Option.some_bind]
  rw [cast_sub_one k hk1]
  rw [pySet_cast_lt _ 7 _ (by simp)]
  rw [show ([a0, a1, a2, a3, a4, a5, a6, ((k : ℕ) : ℚ)] : List ℚ).set 7
    ((k - 1 : ℕ) : ℚ) = [a0, a1, a2, a3, a4, a5, a6, ((k - 1 : ℕ) : ℚ)]
    from rfl]
  simp only [Option.bind_eq_bind, Option.some_bind]
  rw [pyGet_cast_lt _ 7 (by simp)]
  rw [show ([a0, a1, a2, a3, a4, a5, a6, ((k - 1 : ℕ) : ℚ)] : List ℚ).getD 7 0
    = ((k - 1 : ℕ) : ℚ) from rfl]
  simp only [Option.bind_eq_bind, Option.some_bind]
  rw [pySet_cast_lt s.ram (k - 1) _ hw]
  simp only [Option.map_some', Option.bind_eq_bind, Option.some_bind]

end LS8

namespace LS8

/-- Claim C5: when interrupts are enabled, bit 0 of IM (R5) is set and
at least one second has elapsed, the interrupt check pushes exactly 8
words — PC, FL, R0, R1, R2, R3, R4, R5 in that order, SP decremented
before each write, 8 in total — clears IS (R6) to 0, latches
`interrupts_disabled`, and loads PC from the vector cell 0xF8 (read
after the pushes). -/
theorem C5_interrupt_context_save (s : CPUState) (elapsed sp : ℕ)
    (q0 q1 q2 q3 q4 im q6 : ℚ)
    (hreg : s.reg = [q0, q1, q2, q3, q4, im, q6, ((sp : ℕ) : ℚ)])
    (hdis : s.interrupts_disabled = false)
    (hden : im.den = 1) (hodd : im.num % 2 = 1)
    (helapsed : 1 ≤ elapsed)
    (hram : s.ram.length = 256)
    (hsp1 : 8 ≤ sp) (hsp2 : sp ≤ 256) :
    ∃ t, run_interrupt_check elapsed s = some t ∧
      t.reg = [q0, q1, q2, q3, q4, im, 0, ((sp - 8 : ℕ) : ℚ)] ∧
      t.ram = ((((((((s.ram.set (sp - 1) s.pc).set (sp - 2) (s.fl : ℚ)).set
        (sp - 3) q0).set (sp - 4) q1).set (sp - 5) q2).set (sp - 6) q3).set
        (sp - 7) q4).set (sp - 8) im) ∧
      t.interrupts_disabled = true ∧
      t.pc = t.ram.getD 248 0 ∧
      t.fl = s.fl ∧ t.running = s.running ∧ t.output = s.output := by
  unfold run_interrupt_check ram_read
  rw [hdis]
  rw [if_pos (rfl : (false : Bool) = false)]
  simp only [IM, IS]
  rw [hreg, pyGet_cast_lt _ 5 (by simp)]
  rw [show ([q0, q1, q2, q3, q4, im, q6, ((sp : ℕ) : ℚ)] : List ℚ).getD 5 0
    = im from rfl]
  simp only [Option.bind_eq_bind, Option.some_bind]
  rw [hden, if_pos (rfl : (1 : ℕ) = 1), if_pos hodd, if_pos helapsed]
  rw [pySet_cast_lt _ 6 _ (by simp)]
  rw [show ([q0, q1, q2, q3, q4, im, q6, ((sp : ℕ) : ℚ)] : List ℚ).set 6 1
    = [q0, q1, q2, q3, q4, im, 1, ((sp : ℕ) : ℚ)] from rfl]
  simp only [Option.bind_eq_bind, Option.some_bind]
  rw [pyGet_cast_lt _ 5 (by simp)]
  rw [show ([q0, q1, q2, q3, q4, im, 1, ((sp : ℕ) : ℚ)] : List ℚ).getD 5 0
    = im from rfl]
  simp only [Option.bind_eq_bind, Option.some_bind]
  rw [pyGet_cast_lt _ 6 (by simp)]
  rw [show ([q0, q1, q2, q3, q4, im, 1, ((sp : ℕ) : ℚ)] : List ℚ).getD 6 0
    = (1 : ℚ) from rfl]
  simp only [Option.bind_eq_bind, Option.some_bind]
  rw [hden]
  rw [if_pos (⟨rfl, rfl⟩ : (1 : ℕ) = 1 ∧ ((1 : ℚ)).den = 1)]
  rw [show ((1 : ℚ)).num = 1 from rfl]
  rw [if_pos (land_one_ne_zero im.num hodd)]
  rw [pySet_cast_lt _ 6 _ (by simp)]
  rw [show ([q0, q1, q2, q3, q4, im, 1, ((sp : ℕ) : ℚ)] : List ℚ).set 6 0
    = [q0, q1, q2, q3, q4, im, 0, ((sp : ℕ) : ℚ)] from rfl]
  simp only [Option.bind_eq_bind, Option.some_bind]
  rw [push_word_eq { s with
      reg := [q0, q1, q2, q3, q4, im, 0, ((sp : ℕ) : ℚ)]
      interrupts_disabled := true } q0 q1 q2 q3 q4 im 0 sp s.pc rfl hram
    (by omega) (by omega)]
  simp only [Option.bind_eq_bind, Option.some_bind]
  rw [push_word_eq { s with
      ram := s.ram.set (sp - 1) s.pc
      reg := [q0, q1, q2, q3, q4, im, 0, ((sp - 1 : ℕ) : ℚ)]
      interrupts_disabled := true } q0 q1 q2 q3 q4 im 0 (sp - 1)
    ((s.fl : ℚ)) rfl (by rw [List.length_set]; exact hram) (by omega)
    (by omega)]
  rw [show sp - 1 - 1 = sp - 2 from by omega]
  simp only [Option.bind_eq_bind, Option.some_bind]
  rw [show ([q0, q1, q2, q3, q4, im, 0, ((sp - 2 : ℕ) : ℚ)] : List ℚ).take 6
    = [q0, q1, q2, q3, q4, im] from rfl]
  simp only [push_words]
  rw [push_word_eq { s with
      ram := (s.ram.set (sp - 1) s.pc).set (sp - 2) ((s.fl : ℚ))
      reg := [q0, q1, q2, q3, q4, im, 0, ((sp - 2 : ℕ) : ℚ)]
      interrupts_disabled := true } q0 q1 q2 q3 q4 im 0 (sp - 2) q0 rfl
    (by simp only [List.length_set]; exact hram) (by omega) (by omega)]
  rw [show sp - 2 - 1 = sp - 3 from by omega]
  simp only [Option.bind_eq_bind, Option.some_bind]
  rw [push_word_eq { s with
      ram := ((s.ram.set (sp - 1) s.pc).set (sp - 2) ((s.fl : ℚ))).set (sp - 3) q0
      reg := [q0, q1, q2, q3, q4, im, 0, ((sp - 3 : ℕ) : ℚ)]
      interrupts_disabled := true } q0 q1 q2 q3 q4 im 0 (sp - 3) q1 rfl
    (by simp only [List.length_set]; exact hram) (by omega) (by omega)]
  rw [show sp - 3 - 1 = sp - 4 from by omega]
  simp only [Option.bind_eq_bind, Option.some_bind]
  rw [push_word_eq { s with
      ram := (((s.ram.set (sp - 1) s.pc).set (sp - 2) ((s.fl : ℚ))).set (sp - 3) q0).set (sp - 4) q1
      reg := [q0, q1, q2, q3, q4, im, 0, ((sp - 4 : ℕ) : ℚ)]
      interrupts_disabled := true } q0 q1 q2 q3 q4 im 0 (sp - 4) q2 rfl
    (by simp only [List.length_set]; exact hram) (by omega) (by omega)]
  rw [show sp - 4 - 1 = sp - 5 from by omega]
  simp only [Option.bind_eq_bind, Option.some_bind]
  rw [push_word_eq { s with
      ram := ((((s.ram.set (sp - 1) s.pc).set (sp - 2) ((s.fl : ℚ))).set (sp - 3) q0).set (sp - 4) q1).set (sp - 5) q2
      reg := [q0, q1, q2, q3, q4, im, 0, ((sp - 5 : ℕ) : ℚ)]
      interrupts_disabled := true } q0 q1 q2 q3 q4 im 0 (sp - 5) q3 rfl
    (by simp only [List.length_set]; exact hram) (by omega) (by omega)]
  rw [show sp - 5 - 1 = sp - 6 from by omega]
  simp only [Option.bind_eq_bind, Option.some_bind]
  rw [push_word_eq { s with
      ram := (((((s.ram.set (sp - 1) s.pc).set (sp - 2) ((s.fl : ℚ))).set (sp - 3) q0).set (sp - 4) q1).set (sp - 5) q2).set (sp - 6) q3
      reg := [q0, q1, q2, q3, q4, im, 0, ((sp - 6 : ℕ) : ℚ)]
      interrupts_disabled := true } q0 q1 q2 q3 q4 im 0 (sp - 6) q4 rfl
    (by simp only [List.length_set]; exact hram) (by omega) (by omega)]
  rw [show sp - 6 - 1 = sp - 7 from by omega]
  simp only [Option.bind_eq_bind, Option.some_bind]
  rw [push_word_eq { s with
      ram := ((((((s.ram.set (sp - 1) s.pc).set (sp - 2) ((s.fl : ℚ))).set (sp - 3) q0).set (sp - 4) q1).set (sp - 5) q2).set (sp - 6) q3).set (sp - 7) q4
      reg := [q0, q1, q2, q3, q4, im, 0, ((sp - 7 : ℕ) : ℚ)]
      interrupts_disabled := true } q0 q1 q2 q3 q4 im 0 (sp - 7) im rfl
    (by simp only [List.length_set]; exact hram) (by omega) (by omega)]
  rw [show sp - 7 - 1 = sp - 8 from by omega]
  simp only [Option.bind_eq_bind, Option.some_bind]
  rw [pyGet_cast_lt _ 248 (by simp only [List.length_set]; omega)]
  simp only [Option.bind_eq_bind, Option.some_bind]
  exact ⟨_, rfl, rfl, rfl, rfl, rfl, rfl, rfl, rfl⟩

end LS8

namespace LS8

/-- Concrete state for the interrupt claim: IM (R5) = 1, vector cell
0xF8 holds 0x33, `pc = 7`, `fl = 2`, SP = 0xF4, one second elapsed. -/
def c5s : CPUState :=
  { prog [] with
      ram := (prog []).ram.set 0xF8 0x33
      reg := [10, 11, 12, 13, 14, 1, 0, 244]
      pc := 7
      fl := 2 }

/-- Witness for C5 on the concrete state `c5s`: the 8 words pushed at
0xF3 down to 0xEC are PC, FL, R0, R1, R2, R3, R4, R5 in that order. -/
theorem C5_witness :
    ∃ t, run_interrupt_check 1 c5s = some t ∧
      t.reg = [10, 11, 12, 13, 14, 1, 0, ((236 : ℕ) : ℚ)] ∧
      t.ram = ((((((((c5s.ram.set 243 c5s.pc).set 242 ((c5s.fl : ℚ))).set
        241 10).set 240 11).set 239 12).set 238 13).set 237 14).set 236 1) ∧
      t.interrupts_disabled = true ∧
      t.pc = t.ram.getD 248 0 ∧
      t.fl = c5s.fl ∧ t.running = c5s.running ∧ t.output = c5s.output :=
  C5_interrupt_context_save c5s 1 244 10 11 12 13 14 1 0 (by decide) rfl
    (by decide) (by decide) (by decide) (by decide) (by decide) (by decide)

end LS8

namespace LS8

/-- Claim C2, amended: every handler with a register operand uses the
operand byte as a register-file index directly, with no masking: a
byte `b < 8` selects register `b` (coinciding with its low 3 bits),
while a byte `b ≥ 8` makes the handler fail with an out-of-range
access instead of selecting register `b mod 8`.  The conjunction
covers all fourteen register-operand handlers: `ldi`, `push`, `pop`,
`prn`, `pra`, `jmp`, `jeq`, `jne`, `comp`, `add`, `mul`, `div`, `st`
and `call` (on this state both operand bytes hold `b`, so the
two-operand handlers read register `b` twice).  For `div` and `st`
only the failure direction is stated, since their success additionally
depends on the divisor value resp. the addressed cell, which is
orthogonal to operand decoding; `call` reads its operand from the
already-decremented register file, so the selected register is pinned
through that file. -/
theorem C2_amended_no_masking (s : CPUState) (p sp b : ℕ)
    (hram : s.ram.length = 256) (hreg : s.reg.length = 8)
    (hpc : s.pc = (p : ℚ))
    (hsp : s.reg.getD 7 0 = ((sp : ℕ) : ℚ))
    (hsp1 : 1 ≤ sp) (hsp2 : sp < 256)
    (hb1 : s.ram.getD (p + 1) 0 = ((b : ℕ) : ℚ))
    (hb2 : s.ram.getD (p + 2) 0 = ((b : ℕ) : ℚ))
    (hp2 : p + 2 < 256)
    (hclob1 : sp - 1 ≠ p + 1)
    (hbyte : ∀ i : ℕ, i < 8 → (s.reg.getD i 0).den = 1 ∧
      0 ≤ (s.reg.getD i 0).num ∧ (s.reg.getD i 0).num < 1114112) :
    (b < 8 →
      ldi s = some { s with reg := s.reg.set b ((b : ℕ) : ℚ), pc := s.pc + 3 } ∧
      push s = some { s with
        reg := s.reg.set 7 ((sp - 1 : ℕ) : ℚ)
        ram := s.ram.set (sp - 1) ((s.reg.set 7 ((sp - 1 : ℕ) : ℚ)).getD b 0)
        pc := (p : ℚ) + 2 } ∧
      pop s = some { s with
        reg := (s.reg.set b (s.ram.getD sp 0)).set 7
          ((s.reg.set b (s.ram.getD sp 0)).getD 7 0 + 1)
        pc := (p : ℚ) + 2 } ∧
      prn s = some { s with
        output := s.output ++ [OutEvent.num (s.reg.getD b 0)]
        pc := s.pc + 2 } ∧
      pra s = some { s with
        output := s.output ++ [OutEvent.chr (s.reg.getD b 0)] } ∧
      jmp s = some { s with pc := s.reg.getD b 0 } ∧
      (s.fl % 2 = 1 → jeq s = some { s with pc := s.reg.getD b 0 }) ∧
      (s.fl % 2 = 0 → jne s = some { s with pc := s.reg.getD b 0 }) ∧
      comp s = some { s with fl := 1, pc := s.pc + 3 } ∧
      add s = some { s with
        reg := s.reg.set b (s.reg.getD b 0 + s.reg.getD b 0)
        pc := s.pc + 3 } ∧
      mul s = some { s with
        reg := s.reg.set b (s.reg.getD b 0 * s.reg.getD b 0)
        pc := s.pc + 3 } ∧
      (∃ t, call s = some t ∧
        t.pc = (s.reg.set 7 ((sp - 1 : ℕ) : ℚ)).getD b 0)) ∧
    (8 ≤ b →
      ldi s = none ∧ push s = none ∧ pop s = none ∧ prn s = none ∧
      pra s = none ∧ jmp s = none ∧
      (s.fl % 2 = 1 → jeq s = none) ∧ (s.fl % 2 = 0 → jne s = none) ∧
      comp s = none ∧ add s = none ∧ mul s = none ∧ div s = none ∧
      st s = none ∧ call s = none) := by
  have hp1b : p + 1 < s.ram.length := by omega
  have hp2b : p + 2 < s.ram.length := by omega
  have hread1 : ram_read s (s.pc + 1) = some ((b : ℕ) : ℚ) := by
    unfold ram_read
    rw [hpc, cast_p1 p, pyGet_cast_lt s.ram (p + 1) hp1b, hb1]
  have hread2 : ram_read s (s.pc + 2) = some ((b : ℕ) : ℚ) := by
    unfold ram_read
    rw [hpc, cast_p2 p, pyGet_cast_lt s.ram (p + 2) hp2b, hb2]
  constructor
  · intro hb
    have hgetb : pyGet s.reg ((b : ℕ) : ℚ) = some (s.reg.getD b 0) :=
      pyGet_cast_lt s.reg b (by omega)
    have hsetb : ∀ w, pySet s.reg ((b : ℕ) : ℚ) w = some (s.reg.set b w) :=
      fun w => pySet_cast_lt s.reg b w (by omega)
    refine ⟨?_, ?_, ?_, ?_, ?_, ?_, ?_, ?_, ?_, ?_, ?_, ?_⟩
    · unfold ldi
      rw [hread1]
      simp only [Option.bind_eq_bind, Option.some_bind]
      rw [hread2]
      simp only [Option.bind_eq_bind, Option.some_bind]
      rw [hsetb]
      simp only [Option.bind_eq_bind, Option.some_bind]
    · exact push_eq s p sp b hram hreg hpc hsp hsp1 (by omega) hb1
        (by omega) hb
    · exact pop_eq s p sp b hram hreg hpc hsp hsp2 hb1 (by omega) hb
    · unfold prn
      rw [hread1]
      simp only [Option.bind_eq_bind, Option.some_bind]
      rw [hgetb]
      simp only [Option.bind_eq_bind, Option.some_bind]
    · unfold pra
      rw [hread1]
      simp only [Option.bind_eq_bind, Option.some_bind]
      rw [hgetb]
      simp only [Option.bind_eq_bind, Option.some_bind]
      obtain ⟨hd, hn0, hn1⟩ := hbyte b hb
      rw [if_pos ⟨hd, hn0, hn1⟩]
    · unfold jmp
      rw [hread1]
      simp only [Option.bind_eq_bind, Option.some_bind]
      rw [hgetb]
      simp only [Option.bind_eq_bind, Option.some_bind]
    · intro hfl
      unfold jeq
      rw [if_pos hfl, hread1]
      simp only [Option.bind_eq_bind, Option.some_bind]
      rw [hgetb]
      simp only [Option.bind_eq_bind, Option.some_bind]
    · intro hfl
      unfold jne
      rw [if_pos hfl, hread1]
      simp only [Option.bind_eq_bind, Option.some_bind]
      rw [hgetb]
      simp only [Option.bind_eq_bind, Option.some_bind]
    · unfold comp
      rw [hread1]
      simp only [Option.bind_eq_bind, Option.some_bind]
      rw [hgetb]
      simp only [Option.bind_eq_bind, Option.some_bind]
      rw [hread2]
      simp only [Option.bind_eq_bind, Option.some_bind]
      rw [hgetb]
      simp only [Option.bind_eq_bind, Option.some_bind, eq_self_iff_true,
        if_true]
    · unfold add
      rw [hread1]
      simp only [Option.bind_eq_bind, Option.some_bind]
      rw [hread2]
      simp only [Option.bind_eq_bind, Option.some_bind]
      unfold alu
      rw [if_pos rfl, hgetb]
      simp only [Option.bind_eq_bind, Option.some_bind]
      rw [hsetb]
      simp only [Option.bind_eq_bind, Option.some_bind]
    · unfold mul
      rw [hread1]
      simp only [Option.bind_eq_bind, Option.some_bind]
      rw [hread2]
      simp only [Option.bind_eq_bind, Option.some_bind]
      unfold alu
      rw [if_neg (by decide), if_neg (by decide), if_pos rfl, hgetb]
      simp only [Option.bind_eq_bind, Option.some_bind]
      rw [hsetb]
      simp only [Option.bind_eq_bind, Option.some_bind]
    · unfold call ram_read ram_write
      simp only [SP]
      rw [pyGet_cast_lt s.reg 7 (by omega), hsp]
      simp only [Option.bind_eq_bind, Option.some_bind]
      rw [cast_sub_one sp hsp1, pySet_cast_lt s.reg 7 _ (by omega)]
      simp only [Option.bind_eq_bind, Option.some_bind]
      rw [pyGet_cast_lt _ 7 (by rw [List.length_set]; omega),
        getD_set_self s.reg 7 _ (by omega)]
      simp only [Option.bind_eq_bind, Option.some_bind]
      rw [hpc, pySet_cast_lt s.ram (sp - 1) _ (by omega)]
      simp only [Option.map_some', Option.bind_eq_bind, Option.some_bind]
      rw [cast_p1 p, pyGet_cast_lt _ (p + 1) (by rw [List.length_set]; omega),
        getD_set_ne _ _ _ _ hclob1, hb1]
      simp only [Option.bind_eq_bind, Option.some_bind]
      rw [pyGet_cast_lt _ b (by rw [List.length_set]; omega)]
      simp only [Option.bind_eq_bind, Option.some_bind]
      exact ⟨_, rfl, rfl⟩
  · intro hb
    have hgetn : pyGet s.reg ((b : ℕ) : ℚ) = none := by
      rw [pyGet_natCast, if_neg (by omega)]
    have hsetn : ∀ w, pySet s.reg ((b : ℕ) : ℚ) w = none :=
      fun w => by rw [pySet_natCast, if_neg (by omega)]
    refine ⟨?_, ?_, ?_, ?_, ?_, ?_, ?_, ?_, ?_, ?_, ?_, ?_, ?_, ?_⟩
    · unfold ldi
      rw [hread1]
      simp only [Option.bind_eq_bind, Option.some_bind]
      rw [hread2]
      simp only [Option.bind_eq_bind, Option.some_bind]
      rw [hsetn]
      simp only [Option.bind_eq_bind, Option.none_bind]
    · unfold push ram_read ram_write
      simp only [SP]
      rw [pyGet_cast_lt s.reg 7 (by omega), hsp]
      simp only [Option.bind_eq_bind, Option.some_bind]
      rw [cast_sub_one sp hsp1, pySet_cast_lt s.reg 7 _ (by omega)]
      simp only [Option.bind_eq_bind, Option.some_bind]
      rw [hpc, cast_p1 p, pyGet_cast_lt s.ram (p + 1) hp1b, hb1]
      simp only [Option.bind_eq_bind, Option.some_bind]
      rw [pyGet_natCast, if_neg (by rw [List.length_set]; omega)]
      simp only [Option.bind_eq_bind, Option.none_bind]
    · unfold pop
      simp only [SP]
      rw [hread1]
      simp only [Option.bind_eq_bind, Option.some_bind]
      rw [pyGet_cast_lt s.reg 7 (by omega), hsp]
      simp only [Option.bind_eq_bind, Option.some_bind]
      rw [show ram_read s ((sp : ℕ) : ℚ) = some (s.ram.getD sp 0) from
        pyGet_cast_lt s.ram sp (by omega)]
      simp only [Option.bind_eq_bind, Option.some_bind]
      rw [hsetn]
      simp only [Option.bind_eq_bind, Option.none_bind]
    · unfold prn
      rw [hread1]
      simp only [Option.bind_eq_bind, Option.some_bind]
      rw [hgetn]
      simp only [Option.bind_eq_bind, Option.none_bind]
    · unfold pra
      rw [hread1]
      simp only [Option.bind_eq_bind, Option.some_bind]
      rw [hgetn]
      simp only [Option.bind_eq_bind, Option.none_bind]
    · unfold jmp
      rw [hread1]
      simp only [Option.bind_eq_bind, Option.some_bind]
      rw [hgetn]
      simp only [Option.bind_eq_bind, Option.none_bind]
    · intro hfl
      unfold jeq
      rw [if_pos hfl, hread1]
      simp only [Option.bind_eq_bind, Option.some_bind]
      rw [hgetn]
      simp only [Option.bind_eq_bind, Option.none_bind]
    · intro hfl
      unfold jne
      rw [if_pos hfl, hread1]
      simp only [Option.bind_eq_bind, Option.some_bind]
      rw [hgetn]
      simp only [Option.bind_eq_bind, Option.none_bind]
    · unfold comp
      rw [hread1]
      simp only [Option.bind_eq_bind, Option.some_bind]
      rw [hgetn]
      simp only [Option.bind_eq_bind, Option.none_bind]
    · unfold add
      rw [hread1]
      simp only [Option.bind_eq_bind, Option.some_bind]
      rw [hread2]
      simp only [Option.bind_eq_bind, Option.some_bind]
      unfold alu
      rw [if_pos rfl, hgetn]
      simp only [Option.bind_eq_bind, Option.none_bind]
    · unfold mul
      rw [hread1]
      simp only [Option.bind_eq_bind, Option.some_bind]
      rw [hread2]
      simp only [Option.bind_eq_bind, Option.some_bind]
      unfold alu
      rw [if_neg (by decide), if_neg (by decide), if_pos rfl, hgetn]
      simp only [Option.bind_eq_bind, Option.none_bind]
    · unfold div
      rw [hread1]
      simp only [Option.bind_eq_bind, Option.some_bind]
      rw [hread2]
      simp only [Option.bind_eq_bind, Option.some_bind]
      unfold alu
      rw [if_neg (by decide), if_neg (by decide), if_neg (by decide),
        if_pos rfl, hgetn]
      simp only [Option.bind_eq_bind, Option.none_bind]
    · unfold st
      rw [hread1]
      simp only [Option.bind_eq_bind, Option.some_bind]
      rw [hgetn]
      simp only [Option.bind_eq_bind, Option.none_bind]
    · unfold call ram_read ram_write
      simp only [SP]
      rw [pyGet_cast_lt s.reg 7 (by omega), hsp]
      simp only [Option.bind_eq_bind, Option.some_bind]
      rw [cast_sub_one sp hsp1, pySet_cast_lt s.reg 7 _ (by omega)]
      simp only [Option.bind_eq_bind, Option.some_bind]
      rw [pyGet_cast_lt _ 7 (by rw [List.length_set]; omega),
        getD_set_self s.reg 7 _ (by omega)]
      simp only [Option.bind_eq_bind, Option.some_bind]
      rw [hpc, pySet_cast_lt s.ram (sp - 1) _ (by omega)]
      simp only [Option.map_some', Option.bind_eq_bind, Option.some_bind]
      rw [cast_p1 p, pyGet_cast_lt _ (p + 1) (by rw [List.length_set]; omega),
        getD_set_ne _ _ _ _ hclob1, hb1]
      simp only [Option.bind_eq_bind, Option.some_bind]
      rw [pyGet_natCast, if_neg (by rw [List.length_set]; omega)]
      simp only [Option.bind_eq_bind, Option.none_bind]

/-- Concrete state for the amended C2 witness with operand bytes 2:
both operand cells hold 2, registers hold small byte values. -/
def c2w : CPUState :=
  { prog [0x82, 2, 2] with reg := [3, 4, 5, 6, 7, 8, 9, 0xF4] }

/-- Concrete state for the amended C2 witness with operand bytes 9. -/
def c2w9 : CPUState :=
  { prog [0x82, 9, 9] with reg := [3, 4, 5, 6, 7, 8, 9, 0xF4] }

/-- Witness for the amended C2: with operand byte 2 the handlers act
on register 2, and with operand byte 9 all fourteen register-operand
handlers fail. -/
theorem C2_witness :
    (ldi c2w = some { c2w with reg := c2w.reg.set 2 ((2 : ℕ) : ℚ), pc := c2w.pc + 3 } ∧
      push c2w = some { c2w with
        reg := c2w.reg.set 7 ((243 : ℕ) : ℚ)
        ram := c2w.ram.set 243 ((c2w.reg.set 7 ((243 : ℕ) : ℚ)).getD 2 0)
        pc := ((0 : ℕ) : ℚ) + 2 } ∧
      pop c2w = some { c2w with
        reg := (c2w.reg.set 2 (c2w.ram.getD 244 0)).set 7
          ((c2w.reg.set 2 (c2w.ram.getD 244 0)).getD 7 0 + 1)
        pc := ((0 : ℕ) : ℚ) + 2 } ∧
      prn c2w = some { c2w with
        output := c2w.output ++ [OutEvent.num (c2w.reg.getD 2 0)]
        pc := c2w.pc + 2 } ∧
      pra c2w = some { c2w with
        output := c2w.output ++ [OutEvent.chr (c2w.reg.getD 2 0)] } ∧
      jmp c2w = some { c2w with pc := c2w.reg.getD 2 0 } ∧
      (c2w.fl % 2 = 1 → jeq c2w = some { c2w with pc := c2w.reg.getD 2 0 }) ∧
      (c2w.fl % 2 = 0 → jne c2w = some { c2w with pc := c2w.reg.getD 2 0 }) ∧
      comp c2w = some { c2w with fl := 1, pc := c2w.pc + 3 } ∧
      add c2w = some { c2w with
        reg := c2w.reg.set 2 (c2w.reg.getD 2 0 + c2w.reg.getD 2 0)
        pc := c2w.pc + 3 } ∧
      mul c2w = some { c2w with
        reg := c2w.reg.set 2 (c2w.reg.getD 2 0 * c2w.reg.getD 2 0)
        pc := c2w.pc + 3 } ∧
      (∃ t, call c2w = some t ∧
        t.pc = (c2w.reg.set 7 ((243 : ℕ) : ℚ)).getD 2 0)) ∧
    (ldi c2w9 = none ∧ push c2w9 = none ∧ pop c2w9 = none ∧
      prn c2w9 = none ∧ pra c2w9 = none ∧ jmp c2w9 = none ∧
      (c2w9.fl % 2 = 1 → jeq c2w9 = none) ∧
      (c2w9.fl % 2 = 0 → jne c2w9 = none) ∧
      comp c2w9 = none ∧ add c2w9 = none ∧ mul c2w9 = none ∧
      div c2w9 = none ∧ st c2w9 = none ∧ call c2w9 = none) :=
  ⟨(C2_amended_no_masking c2w 0 244 2 (by decide) (by decide) (by decide)
      (by decide) (by decide) (by decide) (by decide) (by decide) (by decide)
      (by decide) (by decide)).1 (by norm_num),
   (C2_amended_no_masking c2w9 0 244 9 (by decide) (by decide) (by decide)
      (by decide) (by decide) (by decide) (by decide) (by decide) (by decide)
      (by decide) (by decide)).2 (by norm_num)⟩

end LS8
